import Mathlib

/-!
Verification of the core game logic of `src/russels-viper.tsx` (a snake-style
arcade game) against its natural-language specification.

The component's state hooks are embedded as a record `GameState`, and the tick
handler `moveSnake`, the placement loops `generateFood` / `generateObstacles`,
the key handler `handleKeyPress` and the button/loop-driver actions are embedded
as pure functions.  Randomness (`Math.random`) is modelled as an explicit stream
`rng : Nat -> Cell` of sampled cells, and the unbounded `do/while` rejection
loops are modelled with an explicit fuel parameter, returning `none` when the
fuel runs out.

A faithfulness note on state access: inside one invocation of the tick handler,
the identifiers `snake`, `food`, `obstacles` and `score` are the values captured
by the React callbacks at the previous render, i.e. the pre-tick values; all
`setX` calls only take effect after the handler returns.  The embedding
therefore feeds the pre-tick `snake`, `food`, `obstacles` and `score` to the
placement helpers and to the milestone test, exactly as the closures in the
source do.
-/

structure Cell where
  x : Int
  y : Int
deriving DecidableEq

inductive Difficulty where
  | hard
  | extreme
  | nightmare
deriving DecidableEq

structure DifficultyConfig where
  speed : Nat
  obstacleCount : Nat
deriving DecidableEq

def DIFFICULTIES : Difficulty → DifficultyConfig
  | .hard => ⟨100, 10⟩
  | .extreme => ⟨80, 15⟩
  | .nightmare => ⟨60, 20⟩

def INITIAL_SNAKE : List Cell := [⟨10, 10⟩]

def INITIAL_DIRECTION : Cell := ⟨1, 0⟩

/-- The repeated `list.some(e => e.x === c.x && e.y === c.y)` test of the source. -/
def cellOnList (c : Cell) (l : List Cell) : Bool :=
  l.any fun s => s.x == c.x && s.y == c.y

/-- The two sequential wraparound `if`s of `moveSnake` for one coordinate:
`if (v < 0) v = d - 1; if (v >= d) v = 0`. -/
def wrapCoord (v d : Int) : Int :=
  let v1 := if v < 0 then d - 1 else v
  if d ≤ v1 then 0 else v1

/-- Head advance plus wraparound, lines 89-96 of the source. -/
def newHeadOf (hd dir : Cell) (w h : Int) : Cell :=
  ⟨wrapCoord (hd.x + dir.x) w, wrapCoord (hd.y + dir.y) h⟩

/-- The `do { c = random cell } while (forbidden c)` rejection loop shared by
`generateFood` and `generateObstacles`, with fuel.  Returns the accepted cell
and the next unread index of the random stream. -/
def sampleLoop (forbidden : Cell → Bool) (rng : Nat → Cell) : Nat → Nat → Option (Cell × Nat)
  | 0, _ => none
  | fuel + 1, i =>
    if forbidden (rng i) then sampleLoop forbidden rng fuel (i + 1)
    else some (rng i, i + 1)

/-- `generateFood`, lines 51-63: resample until the cell avoids the snake and
the obstacles (the captured, pre-update values). -/
def generateFood (snake obstacles : List Cell) (rng : Nat → Cell) (fuel i : Nat) :
    Option (Cell × Nat) :=
  sampleLoop (fun c => cellOnList c snake || cellOnList c obstacles) rng fuel i

/-- The inner `while` condition of `generateObstacles`, lines 75-79: reject a
candidate on the snake, on the batch built so far, or on the food cell. -/
def obstacleForbidden (snake acc : List Cell) (food : Cell) (c : Cell) : Bool :=
  cellOnList c snake || cellOnList c acc || (food.x == c.x && food.y == c.y)

/-- The `for` loop of `generateObstacles`, lines 68-81: place `k` more cells,
appending each accepted cell to the batch `acc`. -/
def generateObstaclesLoop (snake : List Cell) (food : Cell) (rng : Nat → Cell) (fuel : Nat) :
    Nat → List Cell → Nat → Option (List Cell × Nat)
  | 0, acc, i => some (acc, i)
  | k + 1, acc, i =>
    match sampleLoop (obstacleForbidden snake acc food) rng fuel i with
    | none => none
    | some (c, i2) => generateObstaclesLoop snake food rng fuel k (acc ++ [c]) i2

/-- `generateObstacles`, lines 65-83: a fresh batch of `count` cells (the batch
replaces the previous obstacle list via `setObstacles(newObstacles)`). -/
def generateObstacles (snake : List Cell) (food : Cell) (count : Nat) (rng : Nat → Cell)
    (fuel i : Nat) : Option (List Cell × Nat) :=
  generateObstaclesLoop snake food rng fuel count [] i

/-- The component state: one field per `useState` hook of the core (the snake
colour is presentation-only and omitted). -/
structure GameState where
  snake : List Cell
  direction : Cell
  food : Cell
  obstacles : List Cell
  gameOver : Bool
  score : Nat
  difficulty : Difficulty
  isPlaying : Bool
  gridW : Int
  gridH : Int
deriving DecidableEq

/-- Body of `moveSnake` (lines 85-123) for a snake whose first element is `hd`.
All reads of `snake`, `food`, `obstacles`, `score` are the pre-tick values, as
captured by the source's closures. -/
def moveSnakeAux (st : GameState) (hd : Cell) (rng : Nat → Cell) (fuel i : Nat) :
    Option GameState :=
  let head := newHeadOf hd st.direction st.gridW st.gridH
  if cellOnList head st.obstacles || cellOnList head st.snake then
    some { st with gameOver := true, isPlaying := false }
  else if head.x == st.food.x && head.y == st.food.y then
    match generateFood st.snake st.obstacles rng fuel i with
    | none => none
    | some (newFood, i2) =>
      if 0 < st.score ∧ st.score % 5 = 0 then
        match generateObstacles st.snake st.food (DIFFICULTIES st.difficulty).obstacleCount
            rng fuel i2 with
        | none => none
        | some (newObstacles, _) =>
          some { st with snake := head :: st.snake, food := newFood,
                         obstacles := newObstacles, score := st.score + 1 }
      else
        some { st with snake := head :: st.snake, food := newFood, score := st.score + 1 }
  else
    some { st with snake := (head :: st.snake).dropLast }

/-- One tick.  `none` models the two behaviours the source leaves undefined or
unbounded: an empty snake (`newSnake[0]` is `undefined`) and a rejection loop
that never finds a free cell within the given fuel. -/
def moveSnake (st : GameState) (rng : Nat → Cell) (fuel i : Nat) : Option GameState :=
  match st.snake with
  | [] => none
  | hd :: _ => moveSnakeAux st hd rng fuel i

inductive Key where
  | arrowUp
  | arrowDown
  | arrowLeft
  | arrowRight
  | otherKey
deriving DecidableEq

/-- `handleKeyPress`, lines 128-143: an arrow key is accepted only when the
current direction has no component on the key's axis. -/
def handleKeyPress (k : Key) (prev : Cell) : Cell :=
  match k with
  | .arrowUp => if prev.y == 0 then ⟨0, -1⟩ else prev
  | .arrowDown => if prev.y == 0 then ⟨0, 1⟩ else prev
  | .arrowLeft => if prev.x == 0 then ⟨-1, 0⟩ else prev
  | .arrowRight => if prev.x == 0 then ⟨1, 0⟩ else prev
  | .otherKey => prev

/-- The four legal direction vectors. -/
def isUnitDir (d : Cell) : Bool :=
  (d == ⟨1, 0⟩) || (d == ⟨-1, 0⟩) || (d == ⟨0, 1⟩) || (d == ⟨0, -1⟩)

/-- The discrete events the component reacts to: the interval tick and the
button / keyboard actions. -/
inductive Event where
  | tick
  | start
  | pause
  | resume
  | keyPress (k : Key)
  | setDifficulty (d : Difficulty)
deriving DecidableEq

/-- One event step of the whole component.

The guards mirror the source: ticks and key handling exist only while
`isPlaying` (the `useEffect` at line 125 returns early otherwise and tears the
interval and listener down), `start` is reachable from the Start button
(`!isPlaying && !gameOver`) or the Play Again button (`gameOver`), `pause` only
while playing, `resume` only when `!isPlaying && !gameOver && score > 0`.
`startGame` (lines 155-163) resets the snake, direction and score but runs
`generateFood` / `generateObstacles` against the captured pre-start state. -/
def step (e : Event) (st : GameState) (rng : Nat → Cell) (fuel i : Nat) : Option GameState :=
  match e with
  | .tick => if st.isPlaying then moveSnake st rng fuel i else some st
  | .start =>
    if st.isPlaying = false ∨ st.gameOver = true then
      match generateFood st.snake st.obstacles rng fuel i with
      | none => none
      | some (f, i2) =>
        match generateObstacles st.snake st.food (DIFFICULTIES st.difficulty).obstacleCount
            rng fuel i2 with
        | none => none
        | some (obs, _) =>
          some { st with snake := INITIAL_SNAKE, direction := INITIAL_DIRECTION,
                         food := f, obstacles := obs, gameOver := false, score := 0,
                         isPlaying := true }
    else some st
  | .pause => if st.isPlaying then some { st with isPlaying := false } else some st
  | .resume =>
    if st.isPlaying = false ∧ st.gameOver = false ∧ 0 < st.score then
      some { st with isPlaying := true }
    else some st
  | .keyPress k =>
    if st.isPlaying then some { st with direction := handleKeyPress k st.direction }
    else some st
  | .setDifficulty d => some { st with difficulty := d }

/-! ### Helper lemmas about the embedding -/

lemma cellOnList_eq_true {c : Cell} {l : List Cell} : cellOnList c l = true ↔ c ∈ l := by
  simp only [cellOnList, List.any_eq_true, Bool.and_eq_true, beq_iff_eq]
  constructor
  · rintro ⟨s, hsl, hx, hy⟩
    obtain ⟨sx, sy⟩ := s
    obtain ⟨cx, cy⟩ := c
    simp only at hx hy
    subst hx; subst hy; exact hsl
  · intro hc; exact ⟨c, hc, rfl, rfl⟩

lemma cellOnList_cons {c a : Cell} {l : List Cell} :
    cellOnList c (a :: l) = ((a.x == c.x && a.y == c.y) || cellOnList c l) := by
  simp [cellOnList]

lemma cellOnList_append {c : Cell} {l1 l2 : List Cell} :
    cellOnList c (l1 ++ l2) = (cellOnList c l1 || cellOnList c l2) := by
  simp [cellOnList, List.any_append]

lemma moveSnake_cons (st : GameState) (rng : Nat → Cell) (fuel i : Nat) (hd : Cell)
    (tl : List Cell) (hsnake : st.snake = hd :: tl) :
    moveSnake st rng fuel i = moveSnakeAux st hd rng fuel i := by
  unfold moveSnake
  rw [hsnake]

lemma moveSnakeAux_collision (st : GameState) (hd : Cell) (rng : Nat → Cell) (fuel i : Nat)
    (hc : (cellOnList (newHeadOf hd st.direction st.gridW st.gridH) st.obstacles
          || cellOnList (newHeadOf hd st.direction st.gridW st.gridH) st.snake) = true) :
    moveSnakeAux st hd rng fuel i = some { st with gameOver := true, isPlaying := false } := by
  unfold moveSnakeAux
  simp only [hc, if_true]

lemma moveSnakeAux_eat (st : GameState) (hd : Cell) (rng : Nat → Cell) (fuel i : Nat)
    (hnc : (cellOnList (newHeadOf hd st.direction st.gridW st.gridH) st.obstacles
           || cellOnList (newHeadOf hd st.direction st.gridW st.gridH) st.snake) = false)
    (heat : ((newHeadOf hd st.direction st.gridW st.gridH).x == st.food.x
            && (newHeadOf hd st.direction st.gridW st.gridH).y == st.food.y) = true) :
    moveSnakeAux st hd rng fuel i =
      match generateFood st.snake st.obstacles rng fuel i with
      | none => none
      | some (newFood, i2) =>
        if 0 < st.score ∧ st.score % 5 = 0 then
          match generateObstacles st.snake st.food (DIFFICULTIES st.difficulty).obstacleCount
              rng fuel i2 with
          | none => none
          | some (newObstacles, _) =>
            some { st with snake := newHeadOf hd st.direction st.gridW st.gridH :: st.snake,
                           food := newFood, obstacles := newObstacles, score := st.score + 1 }
        else
          some { st with snake := newHeadOf hd st.direction st.gridW st.gridH :: st.snake,
                         food := newFood, score := st.score + 1 } := by
  unfold moveSnakeAux
  simp only [hnc, heat, Bool.false_eq_true, if_false, if_true]

lemma moveSnakeAux_plain (st : GameState) (hd : Cell) (rng : Nat → Cell) (fuel i : Nat)
    (hnc : (cellOnList (newHeadOf hd st.direction st.gridW st.gridH) st.obstacles
           || cellOnList (newHeadOf hd st.direction st.gridW st.gridH) st.snake) = false)
    (hne : ((newHeadOf hd st.direction st.gridW st.gridH).x == st.food.x
           && (newHeadOf hd st.direction st.gridW st.gridH).y == st.food.y) = false) :
    moveSnakeAux st hd rng fuel i =
      some { st with snake := (newHeadOf hd st.direction st.gridW st.gridH :: st.snake).dropLast } := by
  unfold moveSnakeAux
  simp only [hnc, hne, Bool.false_eq_true, if_false]

lemma generateObstaclesLoop_length (snake : List Cell) (food : Cell) (rng : Nat → Cell)
    (fuel : Nat) (k : Nat) (acc : List Cell) (i : Nat) (l : List Cell) (j : Nat)
    (h : generateObstaclesLoop snake food rng fuel k acc i = some (l, j)) :
    l.length = acc.length + k := by
  induction k generalizing acc i with
  | zero =>
    unfold generateObstaclesLoop at h
    simp only [Option.some.injEq, Prod.mk.injEq] at h
    rw [← h.1]
    omega
  | succ k ih =>
    unfold generateObstaclesLoop at h
    cases hs : sampleLoop (obstacleForbidden snake acc food) rng fuel i with
    | none => rw [hs] at h; cases h
    | some ci =>
      obtain ⟨c, i2⟩ := ci
      rw [hs] at h
      have := ih (acc ++ [c]) i2 h
      simp only [List.length_append, List.length_cons, List.length_nil] at this
      omega

/-! ### Concrete states and random streams used by witnesses and counterexamples -/

/-- A random stream that is constant at the origin; its value is never consumed
on the non-eating and collision paths. -/
def zeroRng : Nat → Cell := fun _ => ⟨0, 0⟩

/-- Snake at the origin about to step right into an obstacle on a 5x5 grid. -/
def obstacleHitState : GameState :=
  ⟨[⟨0, 0⟩], ⟨1, 0⟩, ⟨2, 2⟩, [⟨1, 0⟩], false, 0, .hard, true, 5, 5⟩

/-- A four-cell closed loop about to step down onto its own last segment. -/
def tailHitState : GameState :=
  ⟨[⟨0, 0⟩, ⟨1, 0⟩, ⟨1, 1⟩, ⟨0, 1⟩], ⟨0, 1⟩, ⟨3, 3⟩, [], false, 0, .hard, true, 5, 5⟩

/-! ### C3 -/

/-- C3: on a tick whose wrapped new head hits an obstacle cell or a cell of the
pre-tick snake body, the game ends (`gameOver` becomes true, ticking is turned
off) and the snake, food, obstacles and score are returned exactly at their
pre-tick values: the tick is `some` of the frozen state, with no other field
touched. -/
theorem collision_reverts_and_ends_game (st : GameState) (rng : Nat → Cell) (fuel i : Nat)
    (hd : Cell) (tl : List Cell) (hsnake : st.snake = hd :: tl)
    (hc : (cellOnList (newHeadOf hd st.direction st.gridW st.gridH) st.obstacles
          || cellOnList (newHeadOf hd st.direction st.gridW st.gridH) st.snake) = true) :
    moveSnake st rng fuel i = some { st with gameOver := true, isPlaying := false } := by
  rw [moveSnake_cons st rng fuel i hd tl hsnake]
  exact moveSnakeAux_collision st hd rng fuel i hc

theorem collision_reverts_and_ends_game_w :
    moveSnake obstacleHitState zeroRng 1 0 =
      some { obstacleHitState with gameOver := true, isPlaying := false } :=
  collision_reverts_and_ends_game obstacleHitState zeroRng 1 0 ⟨0, 0⟩ [] (by decide) (by decide)

/-! ### C4 -/

/-- C4: the self-collision test compares the wrapped new head against the full
pre-tick snake, including the tail cell about to be removed: whenever the new
head equals the last segment's position, the tick ends the game (state frozen,
`gameOver` set), even though a non-eating tick would have vacated that cell. -/
theorem tail_cell_counts_in_self_collision (st : GameState) (rng : Nat → Cell) (fuel i : Nat)
    (hd t : Cell) (tl : List Cell) (hsnake : st.snake = hd :: tl)
    (hlast : st.snake.getLast? = some t)
    (hhit : newHeadOf hd st.direction st.gridW st.gridH = t) :
    moveSnake st rng fuel i = some { st with gameOver := true, isPlaying := false } := by
  have hne : st.snake ≠ [] := by rw [hsnake]; exact List.cons_ne_nil hd tl
  have hmem : t ∈ st.snake := by
    rw [List.getLast?_eq_getLast st.snake hne, Option.some.injEq] at hlast
    rw [← hlast]
    exact List.getLast_mem hne
  have hc : (cellOnList (newHeadOf hd st.direction st.gridW st.gridH) st.obstacles
            || cellOnList (newHeadOf hd st.direction st.gridW st.gridH) st.snake) = true := by
    have h2 : cellOnList (newHeadOf hd st.direction st.gridW st.gridH) st.snake = true :=
      cellOnList_eq_true.mpr (hhit ▸ hmem)
    rw [h2, Bool.or_true]
  rw [moveSnake_cons st rng fuel i hd tl hsnake]
  exact moveSnakeAux_collision st hd rng fuel i hc

theorem tail_cell_counts_in_self_collision_w :
    moveSnake tailHitState zeroRng 1 0 =
      some { tailHitState with gameOver := true, isPlaying := false } :=
  tail_cell_counts_in_self_collision tailHitState zeroRng 1 0 ⟨0, 0⟩ ⟨0, 1⟩
    [⟨1, 0⟩, ⟨1, 1⟩, ⟨0, 1⟩] (by decide) (by decide) (by decide)

/-! ### C5 -/

/-- C5: wraparound acts independently per axis: a coordinate that goes below 0
becomes `dimension - 1` and one that reaches or exceeds the dimension becomes 0;
in particular a head at `(0, y)` moving left lands at `(w - 1, y)`, and
symmetrically on the other three edges. -/
theorem wraparound_independent_per_axis (v d w h x y : Int)
    (hd0 : 0 ≤ d) (hw : 1 ≤ w) (hh : 1 ≤ h)
    (hx0 : 0 ≤ x) (hxw : x < w) (hy0 : 0 ≤ y) (hyh : y < h) :
    (v < 0 → wrapCoord v d = d - 1) ∧
    (d ≤ v → wrapCoord v d = 0) ∧
    newHeadOf ⟨0, y⟩ ⟨-1, 0⟩ w h = ⟨w - 1, y⟩ ∧
    newHeadOf ⟨w - 1, y⟩ ⟨1, 0⟩ w h = ⟨0, y⟩ ∧
    newHeadOf ⟨x, 0⟩ ⟨0, -1⟩ w h = ⟨x, h - 1⟩ ∧
    newHeadOf ⟨x, h - 1⟩ ⟨0, 1⟩ w h = ⟨x, 0⟩ := by
  refine ⟨fun hv => ?_, fun hv => ?_, ?_, ?_, ?_, ?_⟩ <;>
    simp only [newHeadOf, wrapCoord, Cell.mk.injEq] <;>
    split_ifs <;> first | rfl | (constructor <;> omega) | omega

theorem wraparound_independent_per_axis_w :
    ((-3 : Int) < 0 → wrapCoord (-3) 7 = 7 - 1) ∧
    ((7 : Int) ≤ -3 → wrapCoord (-3) 7 = 0) ∧
    newHeadOf ⟨0, 9⟩ ⟨-1, 0⟩ 20 15 = ⟨20 - 1, 9⟩ ∧
    newHeadOf ⟨20 - 1, 9⟩ ⟨1, 0⟩ 20 15 = ⟨0, 9⟩ ∧
    newHeadOf ⟨4, 0⟩ ⟨0, -1⟩ 20 15 = ⟨4, 15 - 1⟩ ∧
    newHeadOf ⟨4, 15 - 1⟩ ⟨0, 1⟩ 20 15 = ⟨4, 0⟩ :=
  wraparound_independent_per_axis (-3) 7 20 15 4 9 (by decide) (by decide) (by decide)
    (by decide) (by decide) (by decide) (by decide)

/-! ### C6 -/

/-- Snake at the origin stepping right onto the food cell of a 5x5 grid. -/
def eatState : GameState :=
  ⟨[⟨0, 0⟩], ⟨1, 0⟩, ⟨1, 0⟩, [⟨3, 3⟩], false, 1, .hard, true, 5, 5⟩

/-- A random stream whose first value, `(2, 2)`, is immediately accepted as the
replacement food cell of `eatState`. -/
def eatRng : Nat → Cell := fun _ => ⟨2, 2⟩

/-- C6: on every tick that does not end the game, eating (new head on the food
cell) grows the snake by exactly one segment (head prepended, tail kept), and a
non-eating tick keeps the length unchanged (head prepended, tail removed). -/
theorem snake_growth_law (st st2 : GameState) (rng : Nat → Cell) (fuel i : Nat)
    (hd : Cell) (tl : List Cell) (hsnake : st.snake = hd :: tl)
    (hnc : (cellOnList (newHeadOf hd st.direction st.gridW st.gridH) st.obstacles
           || cellOnList (newHeadOf hd st.direction st.gridW st.gridH) st.snake) = false)
    (hres : moveSnake st rng fuel i = some st2) :
    (((newHeadOf hd st.direction st.gridW st.gridH).x == st.food.x
      && (newHeadOf hd st.direction st.gridW st.gridH).y == st.food.y) = true →
      st2.snake.length = st.snake.length + 1) ∧
    (((newHeadOf hd st.direction st.gridW st.gridH).x == st.food.x
      && (newHeadOf hd st.direction st.gridW st.gridH).y == st.food.y) = false →
      st2.snake.length = st.snake.length) := by
  rw [moveSnake_cons st rng fuel i hd tl hsnake] at hres
  constructor
  · intro heat
    rw [moveSnakeAux_eat st hd rng fuel i hnc heat] at hres
    split at hres
    · cases hres
    · split at hres
      · split at hres
        · cases hres
        · rw [Option.some.injEq] at hres
          rw [← hres]
          simp [List.length_cons]
      · rw [Option.some.injEq] at hres
        rw [← hres]
        simp [List.length_cons]
  · intro hne2
    rw [moveSnakeAux_plain st hd rng fuel i hnc hne2, Option.some.injEq] at hres
    rw [← hres]
    simp only [List.length_dropLast, List.length_cons]
    omega

theorem snake_growth_law_w :
    (((newHeadOf ⟨0, 0⟩ eatState.direction eatState.gridW eatState.gridH).x == eatState.food.x
      && (newHeadOf ⟨0, 0⟩ eatState.direction eatState.gridW eatState.gridH).y == eatState.food.y)
        = true →
      ([⟨1, 0⟩, ⟨0, 0⟩] : List Cell).length = eatState.snake.length + 1) ∧
    (((newHeadOf ⟨0, 0⟩ eatState.direction eatState.gridW eatState.gridH).x == eatState.food.x
      && (newHeadOf ⟨0, 0⟩ eatState.direction eatState.gridW eatState.gridH).y == eatState.food.y)
        = false →
      ([⟨1, 0⟩, ⟨0, 0⟩] : List Cell).length = eatState.snake.length) :=
  snake_growth_law eatState
    { eatState with snake := [⟨1, 0⟩, ⟨0, 0⟩], food := ⟨2, 2⟩, score := 2 }
    eatRng 2 0 ⟨0, 0⟩ [] (by decide) (by decide) (by decide)

/-! ### C10 -/

/-- Snake at `(2, 2)` stepping down into free space on a 5x5 grid. -/
def frameState : GameState :=
  ⟨[⟨2, 2⟩], ⟨0, 1⟩, ⟨4, 4⟩, [⟨1, 1⟩], false, 7, .extreme, true, 5, 5⟩

/-- C10: a tick with no collision and no food contact changes only the snake
(new head prepended, tail removed); the food, obstacles, score, game-over flag,
playing flag and difficulty are exactly their pre-tick values. -/
theorem noneating_tick_frame (st st2 : GameState) (rng : Nat → Cell) (fuel i : Nat)
    (hd : Cell) (tl : List Cell) (hsnake : st.snake = hd :: tl)
    (hnc : (cellOnList (newHeadOf hd st.direction st.gridW st.gridH) st.obstacles
           || cellOnList (newHeadOf hd st.direction st.gridW st.gridH) st.snake) = false)
    (hne : ((newHeadOf hd st.direction st.gridW st.gridH).x == st.food.x
           && (newHeadOf hd st.direction st.gridW st.gridH).y == st.food.y) = false)
    (hres : moveSnake st rng fuel i = some st2) :
    st2.snake = (newHeadOf hd st.direction st.gridW st.gridH :: st.snake).dropLast ∧
    st2.food = st.food ∧ st2.obstacles = st.obstacles ∧ st2.score = st.score ∧
    st2.gameOver = st.gameOver ∧ st2.isPlaying = st.isPlaying ∧
    st2.difficulty = st.difficulty := by
  rw [moveSnake_cons st rng fuel i hd tl hsnake,
      moveSnakeAux_plain st hd rng fuel i hnc hne, Option.some.injEq] at hres
  rw [← hres]
  exact ⟨rfl, rfl, rfl, rfl, rfl, rfl, rfl⟩

theorem noneating_tick_frame_w :
    ([⟨2, 3⟩] : List Cell) =
      (newHeadOf ⟨2, 2⟩ frameState.direction frameState.gridW frameState.gridH
        :: frameState.snake).dropLast ∧
    (⟨4, 4⟩ : Cell) = frameState.food ∧
    ([⟨1, 1⟩] : List Cell) = frameState.obstacles ∧
    7 = frameState.score ∧
    false = frameState.gameOver ∧
    true = frameState.isPlaying ∧
    Difficulty.extreme = frameState.difficulty :=
  noneating_tick_frame frameState
    { frameState with snake := [⟨2, 3⟩] }
    zeroRng 1 0 ⟨2, 2⟩ [] (by decide) (by decide) (by decide) (by decide)

/-! ### C1 -/

/-- Eating tick at pre-tick score 4: the new score is 5, a positive multiple of
5, yet the obstacle list is left untouched, because the source tests the stale
pre-increment score (`score > 0 && score % 5 === 0` with `score = 4`). -/
def milestoneMissState : GameState :=
  ⟨[⟨0, 0⟩], ⟨1, 0⟩, ⟨1, 0⟩, [⟨2, 2⟩], false, 4, .hard, true, 4, 4⟩

/-- Stream for `milestoneMissState`: `(3, 3)` is accepted as replacement food. -/
def missRng : Nat → Cell := fun _ => ⟨3, 3⟩

/-- C1 counterexample: on this eating tick the score becomes 5 - a positive
multiple of 5 - but the obstacle set does not grow by `obstacleCount` (it does
not change at all), refuting the claim as stated. -/
theorem obstacle_regen_misses_score_five :
    moveSnake milestoneMissState missRng 2 0 =
      some { milestoneMissState with snake := [⟨1, 0⟩, ⟨0, 0⟩], food := ⟨3, 3⟩, score := 5 } ∧
    (0 < 5 ∧ 5 % 5 = 0) ∧
    ({ milestoneMissState with
        snake := [⟨1, 0⟩, ⟨0, 0⟩], food := ⟨3, 3⟩, score := 5 } : GameState).obstacles.length ≠
      milestoneMissState.obstacles.length
        + (DIFFICULTIES milestoneMissState.difficulty).obstacleCount := by
  refine ⟨by decide, by decide, by decide⟩

/-- Eating tick at pre-tick score 5 on a 6x6 grid: the stale-score test fires
and the obstacle batch is regenerated. -/
def milestoneHitState : GameState :=
  ⟨[⟨0, 0⟩], ⟨1, 0⟩, ⟨1, 0⟩, [⟨5, 5⟩], false, 5, .hard, true, 6, 6⟩

/-- Stream for `milestoneHitState`: enumerates the 6x6 grid row by row. -/
def enumRng : Nat → Cell := fun n => ⟨Int.ofNat (n % 6), Int.ofNat (n / 6)⟩

/-- C1 (amended): on every eating tick the score is incremented by exactly 1;
when additionally the PRE-TICK score is a positive multiple of 5 (so the new
score is 6, 11, 16, ...), the obstacle list is REPLACED by a freshly generated
batch of exactly `obstacleCount` cells; otherwise the obstacle list is
unchanged.  (The source neither appends the batch nor triggers at new score
5, 10, 15, ...: `generateObstacles` overwrites the list, and the milestone test
reads the stale pre-increment score.) -/
theorem eat_increments_score_and_regenerates_obstacles (st st2 : GameState)
    (rng : Nat → Cell) (fuel i : Nat) (hd : Cell) (tl : List Cell)
    (hsnake : st.snake = hd :: tl)
    (hnc : (cellOnList (newHeadOf hd st.direction st.gridW st.gridH) st.obstacles
           || cellOnList (newHeadOf hd st.direction st.gridW st.gridH) st.snake) = false)
    (heat : ((newHeadOf hd st.direction st.gridW st.gridH).x == st.food.x
            && (newHeadOf hd st.direction st.gridW st.gridH).y == st.food.y) = true)
    (hres : moveSnake st rng fuel i = some st2) :
    st2.score = st.score + 1 ∧
    ((0 < st.score ∧ st.score % 5 = 0) →
      st2.obstacles.length = (DIFFICULTIES st.difficulty).obstacleCount) ∧
    (¬(0 < st.score ∧ st.score % 5 = 0) → st2.obstacles = st.obstacles) := by
  rw [moveSnake_cons st rng fuel i hd tl hsnake,
      moveSnakeAux_eat st hd rng fuel i hnc heat] at hres
  split at hres
  · cases hres
  · split at hres
    · rename_i hm
      split at hres
      · cases hres
      · rename_i newObstacles i3 hgo
        rw [Option.some.injEq] at hres
        rw [← hres]
        refine ⟨rfl, fun _ => ?_, fun hnm => absurd hm hnm⟩
        have hlen := generateObstaclesLoop_length st.snake st.food rng fuel
          (DIFFICULTIES st.difficulty).obstacleCount [] _ newObstacles i3 hgo
        simpa using hlen
    · rename_i hm
      rw [Option.some.injEq] at hres
      rw [← hres]
      exact ⟨rfl, fun hm2 => absurd hm2 hm, fun _ => rfl⟩

theorem eat_increments_score_and_regenerates_obstacles_w :
    ({ milestoneHitState with
        snake := [⟨1, 0⟩, ⟨0, 0⟩], food := ⟨1, 0⟩,
        obstacles := [⟨2, 0⟩, ⟨3, 0⟩, ⟨4, 0⟩, ⟨5, 0⟩, ⟨0, 1⟩, ⟨1, 1⟩, ⟨2, 1⟩, ⟨3, 1⟩, ⟨4, 1⟩,
                      ⟨5, 1⟩],
        score := 6 } : GameState).score = milestoneHitState.score + 1 ∧
    ((0 < milestoneHitState.score ∧ milestoneHitState.score % 5 = 0) →
      ({ milestoneHitState with
          snake := [⟨1, 0⟩, ⟨0, 0⟩], food := ⟨1, 0⟩,
          obstacles := [⟨2, 0⟩, ⟨3, 0⟩, ⟨4, 0⟩, ⟨5, 0⟩, ⟨0, 1⟩, ⟨1, 1⟩, ⟨2, 1⟩, ⟨3, 1⟩, ⟨4, 1⟩,
                        ⟨5, 1⟩],
          score := 6 } : GameState).obstacles.length =
        (DIFFICULTIES milestoneHitState.difficulty).obstacleCount) ∧
    (¬(0 < milestoneHitState.score ∧ milestoneHitState.score % 5 = 0) →
      ({ milestoneHitState with
          snake := [⟨1, 0⟩, ⟨0, 0⟩], food := ⟨1, 0⟩,
          obstacles := [⟨2, 0⟩, ⟨3, 0⟩, ⟨4, 0⟩, ⟨5, 0⟩, ⟨0, 1⟩, ⟨1, 1⟩, ⟨2, 1⟩, ⟨3, 1⟩, ⟨4, 1⟩,
                        ⟨5, 1⟩],
          score := 6 } : GameState).obstacles = milestoneHitState.obstacles) :=
  eat_increments_score_and_regenerates_obstacles milestoneHitState
    { milestoneHitState with
        snake := [⟨1, 0⟩, ⟨0, 0⟩], food := ⟨1, 0⟩,
        obstacles := [⟨2, 0⟩, ⟨3, 0⟩, ⟨4, 0⟩, ⟨5, 0⟩, ⟨0, 1⟩, ⟨1, 1⟩, ⟨2, 1⟩, ⟨3, 1⟩, ⟨4, 1⟩,
                      ⟨5, 1⟩],
        score := 6 }
    enumRng 2 0 ⟨0, 0⟩ [] (by decide) (by decide) (by decide) (by decide)

/-! ### C2 -/

/-- Snake at the origin about to eat the food at `(1, 0)` on a 3x3 grid. -/
def staleFoodState : GameState :=
  ⟨[⟨0, 0⟩], ⟨1, 0⟩, ⟨1, 0⟩, [], false, 0, .hard, true, 3, 3⟩

/-- Stream for `staleFoodState`: the in-bounds cell `(1, 0)` - a value uniform
sampling produces with positive probability. -/
def staleFoodRng : Nat → Cell := fun _ => ⟨1, 0⟩

/-- The state after the eating tick of `staleFoodState`: the replacement food
sits on the new snake head. -/
def staleFoodResult : GameState :=
  ⟨[⟨1, 0⟩, ⟨0, 0⟩], ⟨1, 0⟩, ⟨1, 0⟩, [], false, 1, .hard, true, 3, 3⟩

/-- C2 fails on the code: `generateFood` validates the replacement food only
against the PRE-TICK snake and obstacles (the values captured by the React
closure), and does not exclude the old food cell; so on an eating tick the
replacement food can be placed exactly on the new head.  Here the post-tick
food `(1, 0)` lies on the post-tick snake `[(1, 0), (0, 0)]`. -/
theorem replacement_food_lands_on_new_head :
    moveSnake staleFoodState staleFoodRng 2 0 = some staleFoodResult ∧
    cellOnList staleFoodResult.food staleFoodResult.snake = true := by
  refine ⟨by decide, by decide⟩

/-! ### C7 -/

/-- C7: for every arrow-key event on a legal direction, the direction changes
only if the key's axis differs from the current axis of motion (Up/Down only
while the vertical component is 0, Left/Right only while the horizontal
component is 0); same-axis presses are no-ops, the result is always one of the
four unit vectors, and a 180-degree reversal never occurs. -/
theorem direction_axis_change_only (k : Key) (prev : Cell) (hu : isUnitDir prev = true) :
    ((k = Key.arrowUp ∨ k = Key.arrowDown) → prev.y ≠ 0 → handleKeyPress k prev = prev) ∧
    ((k = Key.arrowLeft ∨ k = Key.arrowRight) → prev.x ≠ 0 → handleKeyPress k prev = prev) ∧
    (handleKeyPress k prev ≠ prev →
      ((k = Key.arrowUp ∨ k = Key.arrowDown) ∧ prev.y = 0) ∨
      ((k = Key.arrowLeft ∨ k = Key.arrowRight) ∧ prev.x = 0)) ∧
    isUnitDir (handleKeyPress k prev) = true ∧
    handleKeyPress k prev ≠ ⟨-prev.x, -prev.y⟩ := by
  have hcases : prev = ⟨1, 0⟩ ∨ prev = ⟨-1, 0⟩ ∨ prev = ⟨0, 1⟩ ∨ prev = ⟨0, -1⟩ := by
    have h4 := hu
    simp only [isUnitDir, Bool.or_eq_true, beq_iff_eq] at h4
    tauto
  rcases hcases with h | h | h | h <;> subst h <;> cases k <;> decide

theorem direction_axis_change_only_w :
    ((Key.arrowUp = Key.arrowUp ∨ Key.arrowUp = Key.arrowDown) →
      (⟨1, 0⟩ : Cell).y ≠ 0 → handleKeyPress Key.arrowUp ⟨1, 0⟩ = ⟨1, 0⟩) ∧
    ((Key.arrowUp = Key.arrowLeft ∨ Key.arrowUp = Key.arrowRight) →
      (⟨1, 0⟩ : Cell).x ≠ 0 → handleKeyPress Key.arrowUp ⟨1, 0⟩ = ⟨1, 0⟩) ∧
    (handleKeyPress Key.arrowUp ⟨1, 0⟩ ≠ ⟨1, 0⟩ →
      ((Key.arrowUp = Key.arrowUp ∨ Key.arrowUp = Key.arrowDown) ∧ (⟨1, 0⟩ : Cell).y = 0) ∨
      ((Key.arrowUp = Key.arrowLeft ∨ Key.arrowUp = Key.arrowRight) ∧ (⟨1, 0⟩ : Cell).x = 0)) ∧
    isUnitDir (handleKeyPress Key.arrowUp ⟨1, 0⟩) = true ∧
    handleKeyPress Key.arrowUp ⟨1, 0⟩ ≠ ⟨-(⟨1, 0⟩ : Cell).x, -(⟨1, 0⟩ : Cell).y⟩ :=
  direction_axis_change_only Key.arrowUp ⟨1, 0⟩ (by decide)

/-! ### C8 -/

/-- A finished game: `gameOver` set, ticking stopped. -/
def overState : GameState :=
  ⟨[⟨2, 2⟩, ⟨3, 2⟩], ⟨1, 0⟩, ⟨4, 4⟩, [⟨0, 0⟩], true, 3, .nightmare, false, 5, 5⟩

/-- C8: once the game is over (`gameOver` set, hence ticking stopped), every
event other than `start` leaves the snake, food, obstacles and score unchanged
and the game still over; in particular the tick event is a no-op, so `start` is
the only transition out of the over state. -/
theorem over_state_frozen_until_start (e : Event) (st st2 : GameState) (rng : Nat → Cell)
    (fuel i : Nat) (hover : st.gameOver = true) (hnp : st.isPlaying = false)
    (hne : e ≠ Event.start) (hstep : step e st rng fuel i = some st2) :
    st2.snake = st.snake ∧ st2.food = st.food ∧ st2.obstacles = st.obstacles ∧
    st2.score = st.score ∧ st2.gameOver = true := by
  cases e with
  | tick =>
    rw [step, if_neg (by rw [hnp]; exact Bool.false_ne_true), Option.some.injEq] at hstep
    rw [← hstep]
    exact ⟨rfl, rfl, rfl, rfl, hover⟩
  | start => exact absurd rfl hne
  | pause =>
    rw [step, if_neg (by rw [hnp]; exact Bool.false_ne_true), Option.some.injEq] at hstep
    rw [← hstep]
    exact ⟨rfl, rfl, rfl, rfl, hover⟩
  | resume =>
    rw [step, if_neg (by rw [hover]; rintro ⟨-, h, -⟩; cases h), Option.some.injEq] at hstep
    rw [← hstep]
    exact ⟨rfl, rfl, rfl, rfl, hover⟩
  | keyPress k =>
    rw [step, if_neg (by rw [hnp]; exact Bool.false_ne_true), Option.some.injEq] at hstep
    rw [← hstep]
    exact ⟨rfl, rfl, rfl, rfl, hover⟩
  | setDifficulty d =>
    rw [step, Option.some.injEq] at hstep
    rw [← hstep]
    exact ⟨rfl, rfl, rfl, rfl, hover⟩

theorem over_state_frozen_until_start_w :
    overState.snake = overState.snake ∧ overState.food = overState.food ∧
    overState.obstacles = overState.obstacles ∧ overState.score = overState.score ∧
    overState.gameOver = true :=
  over_state_frozen_until_start Event.tick overState overState zeroRng 1 0
    (by decide) (by decide) (by decide) (by decide)

/-! ### C9 -/

/-- A cell lies within the grid bounds, the range of
`Math.floor(Math.random() * dimension)`. -/
def inGridCell (w h : Int) (c : Cell) : Prop :=
  0 ≤ c.x ∧ c.x < w ∧ 0 ≤ c.y ∧ c.y < h

instance (w h : Int) (c : Cell) : Decidable (inGridCell w h c) := by
  unfold inGridCell
  infer_instance

/-- The grid as a finite set of cells. -/
def gridCells (w h : Int) : Finset Cell :=
  (Finset.Ico 0 w ×ˢ Finset.Ico 0 h).map
    ⟨fun p => ⟨p.1, p.2⟩, by
      intro a b hab
      obtain ⟨a1, a2⟩ := a
      obtain ⟨b1, b2⟩ := b
      simpa [Cell.mk.injEq, Prod.ext_iff] using hab⟩

lemma mem_gridCells {w h : Int} {c : Cell} : c ∈ gridCells w h ↔ inGridCell w h c := by
  obtain ⟨cx, cy⟩ := c
  constructor
  · intro hc
    rw [gridCells, Finset.mem_map] at hc
    obtain ⟨p, hp, hpc⟩ := hc
    rw [Finset.mem_product, Finset.mem_Ico, Finset.mem_Ico] at hp
    obtain ⟨⟨h1, h2⟩, h3, h4⟩ := hp
    have hx : p.1 = cx := congrArg Cell.x hpc
    have hy : p.2 = cy := congrArg Cell.y hpc
    exact ⟨by rw [← hx]; exact h1, by rw [← hx]; exact h2,
           by rw [← hy]; exact h3, by rw [← hy]; exact h4⟩
  · rintro ⟨h1, h2, h3, h4⟩
    rw [gridCells, Finset.mem_map]
    refine ⟨(cx, cy), ?_, rfl⟩
    rw [Finset.mem_product, Finset.mem_Ico, Finset.mem_Ico]
    exact ⟨⟨h1, h2⟩, h3, h4⟩

lemma card_gridCells (w h : Int) : (gridCells w h).card = w.toNat * h.toNat := by
  simp [gridCells, Finset.card_map, Finset.card_product, Int.card_Ico]

/-- Pigeonhole: a forbidden list whose distinct cells number fewer than the grid
capacity leaves some grid cell free. -/
lemma exists_free_cell (w h : Int) (fl : List Cell)
    (hcap : fl.toFinset.card < w.toNat * h.toNat) :
    ∃ c : Cell, inGridCell w h c ∧ cellOnList c fl = false := by
  by_contra hno
  push_neg at hno
  have hsub : gridCells w h ⊆ fl.toFinset := by
    intro c hc
    have h1 := hno c (mem_gridCells.mp hc)
    have h2 : cellOnList c fl = true := by
      cases hcl : cellOnList c fl with
      | false => exact absurd hcl h1
      | true => rfl
    rw [List.mem_toFinset]
    exact cellOnList_eq_true.mp h2
  have hle := Finset.card_le_card hsub
  rw [card_gridCells] at hle
  omega

/-- If the stream produces an unforbidden cell at offset `k`, the rejection loop
with fuel `k + 1` exits with an unforbidden cell taken from the stream. -/
lemma sampleLoop_success (forbidden : Cell → Bool) (rng : Nat → Cell) :
    ∀ k i : Nat, forbidden (rng (i + k)) = false →
      ∃ m j, sampleLoop forbidden rng (k + 1) i = some (rng m, j) ∧
        forbidden (rng m) = false := by
  intro k
  induction k with
  | zero =>
    intro i h
    rw [Nat.add_zero] at h
    exact ⟨i, i + 1, by simp [sampleLoop, h], h⟩
  | succ k ih =>
    intro i h
    cases hf : forbidden (rng i) with
    | false => exact ⟨i, i + 1, by simp [sampleLoop, hf], hf⟩
    | true =>
      have h2 : forbidden (rng (i + 1 + k)) = false := by
        have heq : i + 1 + k = i + (k + 1) := by omega
        rw [heq]
        exact h
      obtain ⟨m, j, hl, hm⟩ := ih (i + 1) h2
      refine ⟨m, j, ?_, hm⟩
      rw [show k + 1 + 1 = (k + 1) + 1 from rfl]
      simp only [sampleLoop, hf, if_true]
      exact hl

/-- The obstacle-loop rejection test equals the membership test on one combined
forbidden list. -/
lemma obstacleForbidden_eq (snake acc : List Cell) (food c : Cell) :
    obstacleForbidden snake acc food c = cellOnList c ((food :: snake) ++ acc) := by
  simp only [obstacleForbidden, cellOnList_append, cellOnList_cons]
  cases h1 : cellOnList c snake <;> cases h2 : cellOnList c acc <;>
    cases h3 : (food.x == c.x && food.y == c.y) <;> rfl

/-- The food-loop rejection test equals the membership test on one combined
forbidden list. -/
lemma foodForbidden_eq (snake obstacles : List Cell) (c : Cell) :
    (cellOnList c snake || cellOnList c obstacles) = cellOnList c (snake ++ obstacles) := by
  rw [cellOnList_append]

/-- C9: whenever the forbidden cells do not cover the grid (their number is
strictly below the grid capacity, with both dimensions at least 1) and the
random stream stays in bounds and eventually visits every grid cell, both
rejection-sampling loops - the food placement and one obstacle placement -
terminate with some fuel and return a cell inside the grid and outside their
forbidden set. -/
theorem placement_loop_terminates (w h : Int) (snake obstacles acc : List Cell) (food : Cell)
    (rng : Nat → Cell) (_hw : 1 ≤ w) (_hh : 1 ≤ h)
    (hbound : ∀ n, inGridCell w h (rng n))
    (hcover : ∀ c : Cell, inGridCell w h c → ∃ n, rng n = c)
    (hcapF : (snake ++ obstacles).toFinset.card < w.toNat * h.toNat)
    (hcapO : ((food :: snake) ++ acc).toFinset.card < w.toNat * h.toNat) :
    (∃ fuel c j, generateFood snake obstacles rng fuel 0 = some (c, j) ∧
      inGridCell w h c ∧ cellOnList c snake = false ∧ cellOnList c obstacles = false) ∧
    (∃ fuel c j, sampleLoop (obstacleForbidden snake acc food) rng fuel 0 = some (c, j) ∧
      inGridCell w h c ∧ obstacleForbidden snake acc food c = false) := by
  constructor
  · obtain ⟨c0, hc0g, hc0f⟩ := exists_free_cell w h (snake ++ obstacles) hcapF
    obtain ⟨n, hn⟩ := hcover c0 hc0g
    have hstart : (fun c => cellOnList c snake || cellOnList c obstacles) (rng (0 + n)) = false := by
      rw [Nat.zero_add, hn]
      show (cellOnList c0 snake || cellOnList c0 obstacles) = false
      rw [foodForbidden_eq]
      exact hc0f
    obtain ⟨m, j, hl, hm⟩ :=
      sampleLoop_success (fun c => cellOnList c snake || cellOnList c obstacles) rng n 0 hstart
    have hm2 : (cellOnList (rng m) snake || cellOnList (rng m) obstacles) = false := hm
    rw [Bool.or_eq_false_iff] at hm2
    exact ⟨n + 1, rng m, j, hl, hbound m, hm2.1, hm2.2⟩
  · obtain ⟨c0, hc0g, hc0f⟩ := exists_free_cell w h ((food :: snake) ++ acc) hcapO
    obtain ⟨n, hn⟩ := hcover c0 hc0g
    have hstart : obstacleForbidden snake acc food (rng (0 + n)) = false := by
      rw [Nat.zero_add, hn, obstacleForbidden_eq]
      exact hc0f
    obtain ⟨m, j, hl, hm⟩ := sampleLoop_success (obstacleForbidden snake acc food) rng n 0 hstart
    exact ⟨n + 1, rng m, j, hl, hbound m, hm⟩

/-- A stream that enumerates the 2x2 grid with period 4. -/
def cycleRng : Nat → Cell := fun n => ⟨((n % 2 : Nat) : Int), ((n / 2 % 2 : Nat) : Int)⟩

theorem placement_loop_terminates_w :
    (∃ fuel c j, generateFood [⟨0, 0⟩] [] cycleRng fuel 0 = some (c, j) ∧
      inGridCell 2 2 c ∧ cellOnList c [⟨0, 0⟩] = false ∧ cellOnList c [] = false) ∧
    (∃ fuel c j, sampleLoop (obstacleForbidden [⟨0, 0⟩] [] ⟨1, 1⟩) cycleRng fuel 0 = some (c, j) ∧
      inGridCell 2 2 c ∧ obstacleForbidden [⟨0, 0⟩] [] ⟨1, 1⟩ c = false) :=
  placement_loop_terminates 2 2 [⟨0, 0⟩] [] [] ⟨1, 1⟩ cycleRng (by decide) (by decide)
    (by
      intro n
      refine ⟨?_, ?_, ?_, ?_⟩ <;> simp only [cycleRng] <;> omega)
    (by
      rintro ⟨cx, cy⟩ ⟨h1, h2, h3, h4⟩
      simp only at h1 h2 h3 h4
      have hx : cx = 0 ∨ cx = 1 := by omega
      have hy : cy = 0 ∨ cy = 1 := by omega
      rcases hx with rfl | rfl <;> rcases hy with rfl | rfl
      · exact ⟨0, by decide⟩
      · exact ⟨2, by decide⟩
      · exact ⟨1, by decide⟩
      · exact ⟨3, by decide⟩)
    (by decide) (by decide)
